import Mathlib

set_option autoImplicit false

namespace LPrint

/-- Physical media dimensions as returned by the external PWG media database
(`pwg_media_t`): width and length in hundredths of millimeters. -/
structure PwgMedia where
  width : Int
  length : Int
deriving DecidableEq

/-- One IPP attribute value as used by `driver-common.c`.  A collection value
(`colV`) carries a whole nested attribute list.  `noneV` models a collection
slot that `ippAddCollections` allocated with a NULL collection pointer and
that no `ippSetCollection` call has filled.  Tags are elided: every attribute
name in this development is used at a single tag. -/
inductive Value : Type where
  | intV : Int → Value
  | strV : String → Value
  | resV : Int → Int → Value
  | rangeV : Int → Int → Value
  | colV : List (String × List Value) → Value
  | noneV : Value

/-- An IPP attribute: a name together with its ordered values. -/
abbrev Attr : Type := String × List Value

/-- An IPP message (`ipp_t`): the ordered list of attributes. -/
abbrev IppMsg : Type := List Attr

/-- Result of running code that dereferences a pointer returned by the media
database.  `nullDeref` marks the path where `pwgMediaForPWG` returned NULL and
the C code dereferenced it anyway (undefined behavior): the C functions here
have no error return channel at all. -/
inductive CRes (α : Type) : Type where
  | ok : α → CRes α
  | nullDeref : CRes α

/-- A database where every size name resolves: the view of `pwgMediaForPWG`
under which the builders never hit the NULL-dereference path. -/
def totalDb (db : String → PwgMedia) : String → Option PwgMedia :=
  fun s => some (db s)

/-- Model of `ippFindAttribute`: the first attribute with the given name. -/
def findAttr : IppMsg → String → Option Attr
  | [], _ => none
  | a :: rest, nm => if a.1 == nm then some a else findAttr rest nm

/-- The find-then-delete pattern (`ippFindAttribute` followed by
`ippDeleteAttribute`): removes the first attribute with the given name; a
no-op when the name is absent. -/
def deleteFirst (nm : String) : IppMsg → IppMsg
  | [] => []
  | a :: rest => if a.1 == nm then rest else a :: deleteFirst nm rest

/-- Model of `ippAddInteger`: appends a one-valued integer attribute. -/
def addInt (msg : IppMsg) (nm : String) (v : Int) : IppMsg :=
  msg ++ [(nm, [Value.intV v])]

/-- Model of `ippAddString`: appends a one-valued string attribute. -/
def addStr (msg : IppMsg) (nm : String) (v : String) : IppMsg :=
  msg ++ [(nm, [Value.strV v])]

/-- Model of `ippAddStrings`: appends a multi-valued string attribute; with fewer than
one value CUPS returns NULL and adds nothing. -/
def addStrs (msg : IppMsg) (nm : String) (vs : List String) : IppMsg :=
  if vs.isEmpty then msg else msg ++ [(nm, vs.map Value.strV)]

/-- Model of `ippAddResolution`: appends a one-valued resolution attribute. -/
def addRes (msg : IppMsg) (nm : String) (x y : Int) : IppMsg :=
  msg ++ [(nm, [Value.resV x y])]

/-- Model of `ippAddResolutions`: appends a multi-valued resolution attribute; with
fewer than one value CUPS adds nothing. -/
def addResList (msg : IppMsg) (nm : String) (rs : List (Int × Int)) : IppMsg :=
  if rs.isEmpty then msg else msg ++ [(nm, rs.map (fun r => Value.resV r.1 r.2))]

/-- Model of `ippAddCollections` called with NULL values: allocates `count` unset
collection slots and returns a handle to the new attribute (its index); with
fewer than one value CUPS returns NULL and adds nothing. -/
def addCols (msg : IppMsg) (nm : String) (count : Nat) : IppMsg × Option Nat :=
  if count = 0 then (msg, none)
  else (msg ++ [(nm, List.replicate count Value.noneV)], some msg.length)

/-- The `ippSetValue` index contract: replace the value at `i` when in bounds,
append when `i` equals the count, otherwise change nothing. -/
def setAt (vs : List Value) (i : Nat) (v : Value) : List Value :=
  if i < vs.length then vs.set i v
  else if i = vs.length then vs ++ [v]
  else vs

/-- Model of `ippSetCollection` through an attribute handle; a NULL handle is a no-op. -/
def setCol (msg : IppMsg) (h : Option Nat) (i : Nat) (v : Value) : IppMsg :=
  match h with
  | none => msg
  | some ai =>
    match msg.get? ai with
    | none => msg
    | some a => msg.set ai (a.1, setAt a.2 i v)

/-- Number of attributes in a message carrying the given name. -/
def countName : IppMsg → String → Nat
  | [], _ => 0
  | a :: rest, nm => (if a.1 == nm then 1 else 0) + countName rest nm

/-- The driver capability fields of `lprint_driver_t` used by this file.  The
C `num_xxx` counters are the list lengths; `x_resolution` and `y_resolution`
are the parallel resolution arrays. -/
structure Driver where
  name : String
  media : List String
  source : List String
  type : List String
  x_resolution : List Int
  y_resolution : List Int
  left_right : Int
  bottom_top : Int

/-- A printer: its advertised attribute set and the attached driver. -/
structure Printer where
  attrs : IppMsg
  driver : Option Driver

/-- Driver keyword table (`lprint_drivers`). -/
def lprint_drivers : List String :=
  [ "dymo_lm-400", "dymo_lm-450", "dymo_lm-pc", "dymo_lm-pc-ii", "dymo_lm-pnp",
    "dymo_lp-350", "dymo_lw-300", "dymo_lw-310", "dymo_lw-315", "dymo_lw-320",
    "dymo_lw-330-turbo", "dymo_lw-330", "dymo_lw-400-turbo", "dymo_lw-400",
    "dymo_lw-450-duo-label", "dymo_lw-450-duo-tape", "dymo_lw-450-turbo",
    "dymo_lw-450-twin-turbo", "dymo_lw-450", "dymo_lw-4xl", "dymo_lw-duo-label",
    "dymo_lw-duo-tape", "dymo_lw-duo-tape-128", "dymo_lw-se450",
    "dymo_lw-wireless" ]

/-- Make-and-model table (`lprint_models`), index-aligned with
`lprint_drivers`. -/
def lprint_models : List String :=
  [ "Dymo LabelMANAGER 400", "Dymo LabelMANAGER 450", "Dymo LabelMANAGER PC",
    "Dymo LabelMANAGER PC II", "Dymo LabelMANAGER PNP", "Dymo LabelPOINT 350",
    "Dymo LabelWriter 300", "Dymo LabelWriter 310", "Dymo LabelWriter 315",
    "Dymo LabelWriter 320", "Dymo LabelWriter 330 Turbo", "Dymo LabelWriter 330",
    "Dymo LabelWriter 400 Turbo", "Dymo LabelWriter 400",
    "Dymo LabelWriter 450 DUO Label", "Dymo LabelWriter 450 DUO Tape",
    "Dymo LabelWriter 450 Turbo", "Dymo LabelWriter 450 Twin Turbo",
    "Dymo LabelWriter 450", "Dymo LabelWriter 4XL", "Dymo LabelWriter DUO Label",
    "Dymo LabelWriter DUO Tape", "Dymo LabelWriter DUO Tape 128",
    "Dymo LabelWriter SE450", "Dymo LabelWriter Wireless" ]

/-- The registry scan shared by `lprintGetMakeAndModel`: walk both tables in
step and return the model at the first index whose keyword equals `nm`. -/
def lookupModel : List String → List String → String → Option String
  | k :: ks, m :: ms, nm => if k == nm then some m else lookupModel ks ms nm
  | _, _, _ => none

/-- Model of `lprintGetMakeAndModel`: the make-and-model string for a driver, or
`Unknown` when the driver is absent (NULL driver or NULL name in C) or its
name matches no registry keyword. -/
def lprintGetMakeAndModel (driver : Option Driver) : String :=
  match driver with
  | none => "Unknown"
  | some d => (lookupModel lprint_drivers lprint_models d.name).getD "Unknown"

/-- The registry scan of `lprintCreateDriver`: the index of the first keyword
equal to `nm`, as found by the `strcmp` loop. -/
def driverIndex (nm : String) : List String → Option Nat
  | [] => none
  | k :: ks => if k == nm then some 0 else (driverIndex nm ks).map (fun i => i + 1)

/-- The `strncmp(s, p, strlen(p)) == 0` prefix test, computed on the
character lists of the two strings. -/
def strStartsWith (p s : String) : Bool := p.data.isPrefixOf s.data

/-- The seven printer command-language families of the keyword dispatch. -/
inductive Family : Type where
  | cpcl | dymo | epl1 | epl2 | fgl | pcl | zpl
deriving DecidableEq

/-- The keyword-prefix dispatch chain of `lprintCreateDriver` (lines 119-132):
ZPL is the default fallback. -/
def dispatchFamily (nm : String) : Family :=
  if strStartsWith "cpcl_" nm then Family.cpcl
  else if strStartsWith "dymo_" nm then Family.dymo
  else if strStartsWith "epl1_" nm then Family.epl1
  else if strStartsWith "epl2_" nm then Family.epl2
  else if strStartsWith "fgl_" nm then Family.fgl
  else if strStartsWith "pcl_" nm then Family.pcl
  else Family.zpl

/-- Test `strncmp(m, "roll_max_", 9) == 0`: the roll maximum sentinel test. -/
def isRollMax (m : String) : Bool := strStartsWith "roll_max_" m

/-- Test `strncmp(m, "roll_min_", 9) == 0`: the roll minimum sentinel test. -/
def isRollMin (m : String) : Bool := strStartsWith "roll_min_" m

/-- A discrete media entry: the final `else` branch of the fill loops, an
entry carrying neither sentinel prefix. -/
def isDiscrete (m : String) : Bool := !isRollMax m && !isRollMin m

/-- The collection count computed before each `ippAddCollections` call
(lines 316-318 and 379-381): entries whose name does not begin with
`roll_max_`.  Note that `roll_min_` entries are counted. -/
def mediaColCount (media : List String) : Nat :=
  (media.filter (fun m => !isRollMax m)).length

/-- The number of discrete (non-sentinel) entries of a media list. -/
def discreteCount (media : List String) : Nat :=
  (media.filter isDiscrete).length

/-- The number of entries taking the `roll_min_` branch of the fill loops. -/
def rollMinCount (media : List String) : Nat :=
  (media.filter (fun m => !isRollMax m && isRollMin m)).length

/-- The `minname` local after a fill loop has scanned `ms`, starting from
`acc`: the last entry taking the `roll_min_` branch. -/
def loopMin : List String → Option String → Option String
  | [], acc => acc
  | m :: rest, acc =>
    if isRollMax m then loopMin rest acc
    else if isRollMin m then loopMin rest (some m)
    else loopMin rest acc

/-- The `maxname` local after a fill loop has scanned `ms`, starting from
`acc`: the last entry taking the `roll_max_` branch. -/
def loopMax : List String → Option String → Option String
  | [], acc => acc
  | m :: rest, acc =>
    if isRollMax m then loopMax rest (some m) else loopMax rest acc

/-- Model of `lprint_create_media_size`: the bare size collection for a size name.
The C code reads `pwg->width` without checking `pwgMediaForPWG` for NULL, so
an unknown name is a null dereference, not an error return. -/
def lprint_create_media_size (db : String → Option PwgMedia) (size_name : String) :
    CRes IppMsg :=
  match db size_name with
  | none => CRes.nullDeref
  | some pwg =>
    CRes.ok [("x-dimension", [Value.intV pwg.width]),
             ("y-dimension", [Value.intV pwg.length])]

/-- Model of `lprintCreateMediaCol`: a full media collection with size name, size,
margins, and optional source and type. -/
def lprintCreateMediaCol (db : String → Option PwgMedia) (size_name : String)
    (source mtype : Option String) (left_right bottom_top : Int) : CRes IppMsg :=
  match lprint_create_media_size db size_name with
  | CRes.nullDeref => CRes.nullDeref
  | CRes.ok size =>
    CRes.ok
      ([("media-size-name", [Value.strV size_name]),
        ("media-size", [Value.colV size]),
        ("media-bottom-margin", [Value.intV bottom_top]),
        ("media-left-margin", [Value.intV left_right]),
        ("media-right-margin", [Value.intV left_right]),
        ("media-top-margin", [Value.intV bottom_top])]
       ++ (match source with
           | some s => [("media-source", [Value.strV s])]
           | none => [])
       ++ (match mtype with
           | some t => [("media-type", [Value.strV t])]
           | none => []))

/-- The full media collection built for a discrete entry when every size name
resolves (the `CRes.ok` payload of `lprintCreateMediaCol` with no source or
type). -/
def mediaColOf (db : String → PwgMedia) (lr bt : Int) (m : String) : IppMsg :=
  [("media-size-name", [Value.strV m]),
   ("media-size", [Value.colV [("x-dimension", [Value.intV (db m).width]),
                               ("y-dimension", [Value.intV (db m).length])]]),
   ("media-bottom-margin", [Value.intV bt]),
   ("media-left-margin", [Value.intV lr]),
   ("media-right-margin", [Value.intV lr]),
   ("media-top-margin", [Value.intV bt])]

/-- The roll range collection written into media-col-database
(lines 344-361): a collection holding a single `media-size` whose dimensions
are ranges from the minimum to the maximum roll size. -/
def rollRangeCol (minpwg maxpwg : PwgMedia) : IppMsg :=
  [("media-size",
    [Value.colV [("x-dimension", [Value.rangeV minpwg.width maxpwg.width]),
                 ("y-dimension", [Value.rangeV minpwg.length maxpwg.length])]])]

/-- The roll range size written into media-size-supported (lines 407-419):
the bare range size, not wrapped in a `media-size` member. -/
def rollRangeSize (minpwg maxpwg : PwgMedia) : IppMsg :=
  [("x-dimension", [Value.rangeV minpwg.width maxpwg.width]),
   ("y-dimension", [Value.rangeV minpwg.length maxpwg.length])]

/-- The media-col-database fill loop of `lprint_copy_media` (lines 322-342):
saves the last sentinel of each kind and writes one full media collection per
discrete entry at consecutive indices of the attribute at handle `h`. -/
def mediaColLoop (db : String → Option PwgMedia) (lr bt : Int) (h : Option Nat) :
    List String → IppMsg → Nat → Option String → Option String →
    CRes (IppMsg × Nat × Option String × Option String)
  | [], msg, count, minn, maxn => CRes.ok (msg, count, minn, maxn)
  | m :: rest, msg, count, minn, maxn =>
    if isRollMax m then mediaColLoop db lr bt h rest msg count minn (some m)
    else if isRollMin m then mediaColLoop db lr bt h rest msg count (some m) maxn
    else
      match lprintCreateMediaCol db m none none lr bt with
      | CRes.nullDeref => CRes.nullDeref
      | CRes.ok col =>
        mediaColLoop db lr bt h rest (setCol msg h count (Value.colV col)) (count + 1) minn maxn

/-- The media-size-supported fill loop of `lprint_copy_media`
(lines 385-405): like the media-col-database loop but each discrete entry gets
the bare size collection. -/
def mediaSizeLoop (db : String → Option PwgMedia) (h : Option Nat) :
    List String → IppMsg → Nat → Option String → Option String →
    CRes (IppMsg × Nat × Option String × Option String)
  | [], msg, count, minn, maxn => CRes.ok (msg, count, minn, maxn)
  | m :: rest, msg, count, minn, maxn =>
    if isRollMax m then mediaSizeLoop db h rest msg count minn (some m)
    else if isRollMin m then mediaSizeLoop db h rest msg count (some m) maxn
    else
      match lprint_create_media_size db m with
      | CRes.nullDeref => CRes.nullDeref
      | CRes.ok col =>
        mediaSizeLoop db h rest (setCol msg h count (Value.colV col)) (count + 1) minn maxn

/-- Lines 312-361 of `lprint_copy_media`: replace media-col-database, allocate
one slot per non-`roll_max_` entry, fill one collection per discrete entry,
and, when both sentinels were seen, write the roll range collection at the
next index.  Returns the message together with the `minname`/`maxname`
locals, which the C function carries on into the media-size-supported part. -/
def mediaColSection (db : String → Option PwgMedia) (drv : Driver) (msg : IppMsg) :
    CRes (IppMsg × Option String × Option String) :=
  let m1 := deleteFirst "media-col-database" msg
  let p := addCols m1 "media-col-database" (mediaColCount drv.media)
  match mediaColLoop db drv.left_right drv.bottom_top p.2 drv.media p.1 0 none none with
  | CRes.nullDeref => CRes.nullDeref
  | CRes.ok (m2, count, minn, maxn) =>
    match minn, maxn with
    | some mn, some mx =>
      match db mx, db mn with
      | some maxpwg, some minpwg =>
        CRes.ok (setCol m2 p.2 count (Value.colV (rollRangeCol minpwg maxpwg)), some mn, some mx)
      | _, _ => CRes.nullDeref
    | mn, mx => CRes.ok (m2, mn, mx)

/-- Lines 375-420 of `lprint_copy_media`: replace media-size-supported with
one bare size collection per discrete entry and, when both sentinels have
been seen, the bare range size at the next index.  The `minname`/`maxname`
locals carry in from the media-col-database part and are not reset. -/
def mediaSizeSection (db : String → Option PwgMedia) (drv : Driver)
    (minn0 maxn0 : Option String) (msg : IppMsg) :
    CRes (IppMsg × Option String × Option String) :=
  let m1 := deleteFirst "media-size-supported" msg
  let p := addCols m1 "media-size-supported" (mediaColCount drv.media)
  match mediaSizeLoop db p.2 drv.media p.1 0 minn0 maxn0 with
  | CRes.nullDeref => CRes.nullDeref
  | CRes.ok (m2, count, minn, maxn) =>
    match minn, maxn with
    | some mn, some mx =>
      match db mx, db mn with
      | some maxpwg, some minpwg =>
        CRes.ok (setCol m2 p.2 count (Value.colV (rollRangeSize minpwg maxpwg)), some mn, some mx)
      | _, _ => CRes.nullDeref
    | mn, mx => CRes.ok (m2, mn, mx)

/-- Model of `lprint_copy_media`: the Media Capability Builder.  Replaces the four
margin attributes, media-col-database, media-size-supported,
media-source-supported, media-supported, and media-type-supported on the
printer's attribute set, in the source's order. -/
def lprint_copy_media (db : String → Option PwgMedia) (drv : Driver) (msg : IppMsg) :
    CRes IppMsg :=
  let m1 := addInt (deleteFirst "media-bottom-margin-supported" msg)
              "media-bottom-margin-supported" drv.bottom_top
  match mediaColSection db drv m1 with
  | CRes.nullDeref => CRes.nullDeref
  | CRes.ok (m2, minn, maxn) =>
    let m3 := addInt (deleteFirst "media-left-margin-supported" m2)
                "media-left-margin-supported" drv.left_right
    let m4 := addInt (deleteFirst "media-right-margin-supported" m3)
                "media-right-margin-supported" drv.left_right
    match mediaSizeSection db drv minn maxn m4 with
    | CRes.nullDeref => CRes.nullDeref
    | CRes.ok (m5, _, _) =>
      let m6 := deleteFirst "media-source-supported" m5
      let m6 := if drv.source.length ≠ 0 then addStrs m6 "media-source-supported" drv.source else m6
      let m7 := addStrs (deleteFirst "media-supported" m6) "media-supported" drv.media
      let m8 := addInt (deleteFirst "media-top-margin-supported" m7)
                  "media-top-margin-supported" drv.bottom_top
      let m9 := deleteFirst "media-type-supported" m8
      let m9 := if drv.type.length ≠ 0 then addStrs m9 "media-type-supported" drv.type else m9
      CRes.ok m9

/-- Lines 141-144 of `lprintCreateDriver`: overwrite the first value of an
existing printer-make-and-model attribute, or append a fresh one. -/
def setMakeModel (model : String) : IppMsg → IppMsg
  | [] => [("printer-make-and-model", [Value.strV model])]
  | a :: rest =>
    if a.1 == "printer-make-and-model" then (a.1, setAt a.2 0 (Value.strV model)) :: rest
    else a :: setMakeModel model rest

/-- The RS resolution token of the urf-supported value (lines 174-177). -/
def rsToken (xs : List Int) : String :=
  if xs.length = 1 then "RS" ++ toString (xs.getD 0 0)
  else "RS" ++ toString (xs.getD (xs.length - 2) 0) ++ "-" ++ toString (xs.getD (xs.length - 1) 0)

/-- Lines 146-184 of `lprintCreateDriver`: the Resolution Capability Builder.
Deletes any existing printer-resolution-default, printer-resolution-supported,
pwg-raster-document-resolution-supported, and urf-supported attributes, then,
only when the driver has at least one resolution, adds the new values. -/
def copyResolution (drv : Driver) (msg : IppMsg) : IppMsg :=
  let n := drv.x_resolution.length
  let m2 := deleteFirst "printer-resolution-supported" (deleteFirst "printer-resolution-default" msg)
  let m3 := if 0 < n then
      addResList
        (addRes m2 "printer-resolution-default"
          (drv.x_resolution.getD (n - 1) 0) (drv.y_resolution.getD (n - 1) 0))
        "printer-resolution-supported" (drv.x_resolution.zip drv.y_resolution)
    else m2
  let m4 := deleteFirst "pwg-raster-document-resolution-supported" m3
  let m5 := if 0 < n then
      addResList m4 "pwg-raster-document-resolution-supported" (drv.x_resolution.zip drv.y_resolution)
    else m4
  let m6 := deleteFirst "urf-supported" m5
  if 0 < n then addStrs m6 "urf-supported" ["V1.4", "W8", rsToken drv.x_resolution] else m6

/-- Model of `ippGetString(attr, 0, NULL)`: the first value when it is a string. -/
def getString0 : Option Attr → Option String
  | some (_, Value.strV s :: _) => some s
  | _ => none

/-- Steps of the `lprintCreateDriver` critical section, in execution order. -/
inductive Event : Type where
  | lockAcquire
  | famInit : Family → Event
  | attach
  | mediaBuilder
  | makeModel
  | resolutionBuilder
  | lockRelease
deriving DecidableEq

/-- The calloc-zeroed driver structure before family dispatch, with the
keyword copied in (`driver->name = strdup(name)`). -/
def freshDriver (nm : String) : Driver :=
  { name := nm, media := [], source := [], type := [],
    x_resolution := [], y_resolution := [], left_right := 0, bottom_top := 0 }

/-- Model of `lprintCreateDriver`.  `db` stands for the external media database and
`pop` for the seven family capability populators (`lprintInitDYMO` and
friends), both out-of-scope collaborators.  Returns the new driver (NULL on a
registry miss), the updated printer, and the trace of critical-section
events in the order the source performs them. -/
def lprintCreateDriver (db : String → Option PwgMedia) (pop : Family → Driver → Driver)
    (p : Printer) : CRes (Option Driver × Printer × List Event) :=
  match getString0 (findAttr p.attrs "lprint-driver") with
  | none => CRes.ok (none, p, [Event.lockAcquire, Event.lockRelease])
  | some nm =>
    match driverIndex nm lprint_drivers with
    | none => CRes.ok (none, p, [Event.lockAcquire, Event.lockRelease])
    | some i =>
      let fam := dispatchFamily nm
      let drv := pop fam (freshDriver nm)
      match lprint_copy_media db drv p.attrs with
      | CRes.nullDeref => CRes.nullDeref
      | CRes.ok a2 =>
        let a3 := setMakeModel (lprint_models.getD i "") a2
        let a4 := copyResolution drv a3
        CRes.ok (some drv, { attrs := a4, driver := some drv },
          [Event.lockAcquire, Event.famInit fam, Event.attach, Event.mediaBuilder,
           Event.makeModel, Event.resolutionBuilder, Event.lockRelease])

/-- The attribute set held in a creation result; empty on the crash path. -/
def resultAttrs : CRes (Option Driver × Printer × List Event) → IppMsg
  | CRes.ok (_, p, _) => p.attrs
  | CRes.nullDeref => []

/-- The values held by the media-col-database attribute after the Media
Capability Builder ran with a database resolving every name: one full media
collection per discrete entry in list order, then, when both sentinels were
seen by the fill loop, the roll range collection, then one untouched NULL
slot per remaining counted `roll_min_` entry. -/
def mediaColDbValues (db : String → PwgMedia) (lr bt : Int) (media : List String) :
    List Value :=
  (media.filter isDiscrete).map (fun m => Value.colV (mediaColOf db lr bt m)) ++
  (match loopMin media none, loopMax media none with
   | some mn, some mx =>
     Value.colV (rollRangeCol (db mn) (db mx)) :: List.replicate (rollMinCount media - 1) Value.noneV
   | _, _ => List.replicate (rollMinCount media) Value.noneV)

/-- The attribute names written by the Media and Resolution Capability
Builders (the four margin attributes, the media collections and keyword
lists, the resolution attributes, and the urf capability-token attribute). -/
def synthNames : List String :=
  ["media-bottom-margin-supported", "media-left-margin-supported",
   "media-right-margin-supported", "media-top-margin-supported",
   "media-col-database", "media-size-supported", "media-supported",
   "media-source-supported", "media-type-supported",
   "printer-resolution-default", "printer-resolution-supported",
   "pwg-raster-document-resolution-supported", "urf-supported"]

/-- The attribute names written by the Resolution Capability Builder. -/
def resNames : List String :=
  ["printer-resolution-default", "printer-resolution-supported",
   "pwg-raster-document-resolution-supported", "urf-supported"]

/-- A sample total media database for concrete runs. -/
def sampleDb : String → PwgMedia :=
  fun s => if s = "roll_min_w6" then ⟨600, 2540⟩
           else if s = "roll_max_w101" then ⟨10160, 30480⟩
           else ⟨3600, 2300⟩

/-- A printer requesting the first registry keyword. -/
def demoPrinter : Printer :=
  ⟨[("lprint-driver", [Value.strV "dymo_lm-400"])], none⟩

/-- A printer whose attribute set already carries two attributes named
media-supported, on top of the requested driver keyword. -/
def dupPrinter : Printer :=
  ⟨[("lprint-driver", [Value.strV "dymo_lm-400"]),
    ("media-supported", [Value.strV "a"]),
    ("media-supported", [Value.strV "b"])], none⟩

/-- A family populate function declaring one discrete media entry. -/
def demoPop : Family → Driver → Driver :=
  fun _ d => { d with media := ["w36h23"] }

/-- A driver with the three-step ascending resolution list of the spec
example. -/
def demoResDriver : Driver :=
  ⟨"demo", [], [], [], [203, 300, 600], [203, 300, 600], 0, 0⟩

/-- A driver declaring a media size name unknown to the media database. -/
def unknownMediaDriver : Driver :=
  ⟨"demo", ["custom_unknown_9x9mm"], [], [], [], [], 0, 0⟩

/-- A driver carrying one discrete entry and both roll sentinels, the spec
example list. -/
def rollDriver : Driver :=
  ⟨"demo", ["w36h23", "roll_min_w6", "roll_max_w101"], [], [], [], [], 100, 200⟩

/-- A driver with no resolutions at all. -/
def emptyResDriver : Driver :=
  ⟨"demo", [], [], [], [], [], 0, 0⟩

/-- A capability set already holding a resolution default and an unrelated
attribute. -/
def resMsgEx : IppMsg :=
  [("printer-resolution-default", [Value.resV 203 203]), ("other", [Value.intV 1])]

/-- The event trace held in a creation result; empty on the crash path. -/
def resultTrace : CRes (Option Driver × Printer × List Event) → List Event
  | CRes.ok (_, _, t) => t
  | CRes.nullDeref => []

end LPrint

namespace LPrint

theorem countName_append (xs ys : IppMsg) (nm : String) :
    countName (xs ++ ys) nm = countName xs nm + countName ys nm := by
  induction xs with
  | nil => simp [countName]
  | cons a rest ih => simp [countName, ih]; omega

theorem countName_concat (msg : IppMsg) (a : String) (vs : List Value) (nm : String) :
    countName (msg ++ [(a, vs)]) nm = countName msg nm + (if a = nm then 1 else 0) := by
  rw [countName_append]; simp [countName]

theorem countName_deleteFirst (d : String) (msg : IppMsg) (nm : String) :
    countName (deleteFirst d msg) nm =
      if d = nm then countName msg nm - 1 else countName msg nm := by
  induction msg with
  | nil => simp [deleteFirst, countName]
  | cons a rest ih =>
    by_cases h2 : d = nm
    · subst h2
      by_cases h1 : a.1 = d
      · simp [deleteFirst, countName, h1]
      · simp [deleteFirst, countName, h1, ih]
    · by_cases h1 : a.1 = d
      · have h3 : ¬(a.1 = nm) := fun hh => h2 (h1.symm.trans hh)
        simp [deleteFirst, countName, h1, h2, h3]
      · simp [deleteFirst, countName, h1, h2, ih]

theorem countName_addInt (msg : IppMsg) (a : String) (v : Int) (nm : String) :
    countName (addInt msg a v) nm = countName msg nm + (if a = nm then 1 else 0) := by
  simp [addInt, countName_concat]

theorem countName_addStr (msg : IppMsg) (a : String) (v : String) (nm : String) :
    countName (addStr msg a v) nm = countName msg nm + (if a = nm then 1 else 0) := by
  simp [addStr, countName_concat]

theorem countName_addStrs (msg : IppMsg) (a : String) (vs : List String) (nm : String) :
    countName (addStrs msg a vs) nm =
      countName msg nm + (if vs.isEmpty then 0 else if a = nm then 1 else 0) := by
  by_cases h : vs.isEmpty <;> simp [addStrs, h, countName_concat]

theorem countName_addRes (msg : IppMsg) (a : String) (x y : Int) (nm : String) :
    countName (addRes msg a x y) nm = countName msg nm + (if a = nm then 1 else 0) := by
  simp [addRes, countName_concat]

theorem countName_addResList (msg : IppMsg) (a : String) (rs : List (Int × Int)) (nm : String) :
    countName (addResList msg a rs) nm =
      countName msg nm + (if rs.isEmpty then 0 else if a = nm then 1 else 0) := by
  by_cases h : rs.isEmpty <;> simp [addResList, h, countName_concat]

theorem countName_addCols_fst (msg : IppMsg) (a : String) (c : Nat) (nm : String) :
    countName (addCols msg a c).1 nm =
      countName msg nm + (if c = 0 then 0 else if a = nm then 1 else 0) := by
  by_cases h : c = 0 <;> simp [addCols, h, countName_concat]

theorem countName_set (msg : IppMsg) (ai : Nat) (a : Attr) (vs : List Value)
    (h : msg.get? ai = some a) (nm : String) :
    countName (msg.set ai (a.1, vs)) nm = countName msg nm := by
  induction msg generalizing ai with
  | nil => simp at h
  | cons x rest ih =>
    cases ai with
    | zero =>
      simp only [List.get?] at h
      cases h
      simp [countName]
    | succ k =>
      simp only [List.get?] at h
      simp [countName, ih k h]

theorem countName_setCol (msg : IppMsg) (h : Option Nat) (i : Nat) (v : Value) (nm : String) :
    countName (setCol msg h i v) nm = countName msg nm := by
  cases h with
  | none => rfl
  | some ai =>
    simp only [setCol]
    cases hg : msg.get? ai with
    | none => rfl
    | some a => exact countName_set msg ai a _ hg nm

theorem countName_setMakeModel_ne (model : String) (msg : IppMsg) (nm : String)
    (h : nm ≠ "printer-make-and-model") :
    countName (setMakeModel model msg) nm = countName msg nm := by
  induction msg with
  | nil => simp [setMakeModel, countName, Ne.symm h]
  | cons a rest ih =>
    by_cases h1 : a.1 = "printer-make-and-model"
    · simp [setMakeModel, countName, h1, ih]
    · simp [setMakeModel, countName, h1, ih]

theorem mem_deleteFirst_of_ne (a : Attr) (d : String) (msg : IppMsg)
    (hm : a ∈ msg) (hne : a.1 ≠ d) : a ∈ deleteFirst d msg := by
  induction msg with
  | nil => simp at hm
  | cons x rest ih =>
    by_cases h1 : x.1 = d
    · rcases List.mem_cons.mp hm with h | h
      · exact absurd (h ▸ h1) hne
      · simpa [deleteFirst, h1] using h
    · rcases List.mem_cons.mp hm with h | h
      · simp [deleteFirst, h1, h]
      · simp [deleteFirst, h1, ih h]

theorem mem_addStrs (a : Attr) (msg : IppMsg) (nm : String) (vs : List String)
    (hm : a ∈ msg) : a ∈ addStrs msg nm vs := by
  by_cases h : vs.isEmpty <;> simp [addStrs, h, hm]

theorem mem_addResList (a : Attr) (msg : IppMsg) (nm : String) (rs : List (Int × Int))
    (hm : a ∈ msg) : a ∈ addResList msg nm rs := by
  by_cases h : rs.isEmpty <;> simp [addResList, h, hm]

end LPrint

namespace LPrint

theorem set_concat_length (l : IppMsg) (x y : Attr) :
    (l ++ [x]).set l.length y = l ++ [y] := by
  induction l with
  | nil => rfl
  | cons a rest ih => simp [List.set, ih]

theorem setCol_concat (base : IppMsg) (nm : String) (vs : List Value) (i : Nat) (v : Value) :
    setCol (base ++ [(nm, vs)]) (some base.length) i v = base ++ [(nm, setAt vs i v)] := by
  simp [setCol, List.getElem?_concat_length, set_concat_length]

theorem valueSet_append_cons (pre : List Value) (x : Value) (suf : List Value) (v : Value) :
    (pre ++ x :: suf).set pre.length v = pre ++ v :: suf := by
  induction pre with
  | nil => rfl
  | cons a rest ih => simp [List.set, ih]

theorem setAt_append_cons (pre : List Value) (x : Value) (suf : List Value) (v : Value) :
    setAt (pre ++ x :: suf) pre.length v = pre ++ v :: suf := by
  have h : pre.length < (pre ++ x :: suf).length := by simp
  simp [setAt, h, valueSet_append_cons]

theorem discreteCount_cons (m : String) (ms : List String) :
    discreteCount (m :: ms) = (if isDiscrete m then 1 else 0) + discreteCount ms := by
  simp only [discreteCount, List.filter_cons]
  split <;> simp <;> omega

theorem rollMinCount_cons (m : String) (ms : List String) :
    rollMinCount (m :: ms) = (if !isRollMax m && isRollMin m then 1 else 0) + rollMinCount ms := by
  simp only [rollMinCount, List.filter_cons]
  split <;> simp_all <;> omega

theorem mediaColCount_cons (m : String) (ms : List String) :
    mediaColCount (m :: ms) = (if !isRollMax m then 1 else 0) + mediaColCount ms := by
  simp only [mediaColCount, List.filter_cons]
  split <;> simp_all <;> omega

theorem mediaColCount_eq (ms : List String) :
    mediaColCount ms = discreteCount ms + rollMinCount ms := by
  induction ms with
  | nil => rfl
  | cons m rest ih =>
    rw [mediaColCount_cons, discreteCount_cons, rollMinCount_cons, ih]
    by_cases h1 : isRollMax m <;> by_cases h2 : isRollMin m <;>
      simp [isDiscrete, h1, h2] <;> omega

theorem createMediaCol_total (db : String → PwgMedia) (m : String) (lr bt : Int) :
    lprintCreateMediaCol (totalDb db) m none none lr bt = CRes.ok (mediaColOf db lr bt m) := rfl

theorem createMediaSize_total (db : String → PwgMedia) (m : String) :
    lprint_create_media_size (totalDb db) m =
      CRes.ok [("x-dimension", [Value.intV (db m).width]),
               ("y-dimension", [Value.intV (db m).length])] := rfl

theorem mediaColLoop_ok_counts (db : String → PwgMedia) (lr bt : Int) (h : Option Nat)
    (ms : List String) : ∀ (msg : IppMsg) (c : Nat) (mn mx : Option String),
    ∃ m2 c2 mn2 mx2,
      mediaColLoop (totalDb db) lr bt h ms msg c mn mx = CRes.ok (m2, c2, mn2, mx2)
      ∧ ∀ n, countName m2 n = countName msg n := by
  induction ms with
  | nil => intro msg c mn mx; exact ⟨msg, c, mn, mx, rfl, fun n => rfl⟩
  | cons m rest ih =>
    intro msg c mn mx
    by_cases h1 : isRollMax m
    · simpa [mediaColLoop, h1] using ih msg c mn (some m)
    · by_cases h2 : isRollMin m
      · simpa [mediaColLoop, h1, h2] using ih msg c (some m) mx
      · obtain ⟨m2, c2, mn2, mx2, heq, hcnt⟩ :=
          ih (setCol msg h c (Value.colV (mediaColOf db lr bt m))) (c + 1) mn mx
        refine ⟨m2, c2, mn2, mx2, ?_, ?_⟩
        · simp [mediaColLoop, h1, h2, createMediaCol_total, heq]
        · intro n; rw [hcnt n, countName_setCol]

theorem mediaSizeLoop_ok_counts (db : String → PwgMedia) (h : Option Nat)
    (ms : List String) : ∀ (msg : IppMsg) (c : Nat) (mn mx : Option String),
    ∃ m2 c2 mn2 mx2,
      mediaSizeLoop (totalDb db) h ms msg c mn mx = CRes.ok (m2, c2, mn2, mx2)
      ∧ ∀ n, countName m2 n = countName msg n := by
  induction ms with
  | nil => intro msg c mn mx; exact ⟨msg, c, mn, mx, rfl, fun n => rfl⟩
  | cons m rest ih =>
    intro msg c mn mx
    by_cases h1 : isRollMax m
    · simpa [mediaSizeLoop, h1] using ih msg c mn (some m)
    · by_cases h2 : isRollMin m
      · simpa [mediaSizeLoop, h1, h2] using ih msg c (some m) mx
      · obtain ⟨m2, c2, mn2, mx2, heq, hcnt⟩ :=
          ih (setCol msg h c (Value.colV [("x-dimension", [Value.intV (db m).width]),
               ("y-dimension", [Value.intV (db m).length])])) (c + 1) mn mx
        refine ⟨m2, c2, mn2, mx2, ?_, ?_⟩
        · simp [mediaSizeLoop, h1, h2, createMediaSize_total, heq]
        · intro n; rw [hcnt n, countName_setCol]

theorem mediaColSection_ok_counts (db : String → PwgMedia) (drv : Driver) (msg : IppMsg) :
    ∃ m2 mn mx, mediaColSection (totalDb db) drv msg = CRes.ok (m2, mn, mx)
      ∧ ∀ n, countName m2 n =
          (if "media-col-database" = n then countName msg n - 1 else countName msg n)
          + (if mediaColCount drv.media = 0 then 0
             else if "media-col-database" = n then 1 else 0) := by
  obtain ⟨m2, c2, mn2, mx2, heq, hcnt⟩ :=
    mediaColLoop_ok_counts db drv.left_right drv.bottom_top
      (addCols (deleteFirst "media-col-database" msg) "media-col-database"
        (mediaColCount drv.media)).2
      drv.media
      (addCols (deleteFirst "media-col-database" msg) "media-col-database"
        (mediaColCount drv.media)).1 0 none none
  have hbase : ∀ n, countName m2 n =
      (if "media-col-database" = n then countName msg n - 1 else countName msg n)
      + (if mediaColCount drv.media = 0 then 0
         else if "media-col-database" = n then 1 else 0) := by
    intro n
    rw [hcnt n, countName_addCols_fst, countName_deleteFirst]
  cases mn2 with
  | none =>
    refine ⟨m2, none, mx2, ?_, hbase⟩
    simp [mediaColSection, heq]
  | some mn =>
    cases mx2 with
    | none =>
      refine ⟨m2, some mn, none, ?_, hbase⟩
      simp [mediaColSection, heq]
    | some mx =>
      refine ⟨setCol m2
          (addCols (deleteFirst "media-col-database" msg) "media-col-database"
            (mediaColCount drv.media)).2 c2
          (Value.colV (rollRangeCol (db mn) (db mx))), some mn, some mx, ?_, ?_⟩
      · simp [mediaColSection, heq, totalDb]
      · intro n; rw [countName_setCol]; exact hbase n

theorem mediaSizeSection_ok_counts (db : String → PwgMedia) (drv : Driver)
    (mn0 mx0 : Option String) (msg : IppMsg) :
    ∃ m2 mn mx, mediaSizeSection (totalDb db) drv mn0 mx0 msg = CRes.ok (m2, mn, mx)
      ∧ ∀ n, countName m2 n =
          (if "media-size-supported" = n then countName msg n - 1 else countName msg n)
          + (if mediaColCount drv.media = 0 then 0
             else if "media-size-supported" = n then 1 else 0) := by
  obtain ⟨m2, c2, mn2, mx2, heq, hcnt⟩ :=
    mediaSizeLoop_ok_counts db
      (addCols (deleteFirst "media-size-supported" msg) "media-size-supported"
        (mediaColCount drv.media)).2
      drv.media
      (addCols (deleteFirst "media-size-supported" msg) "media-size-supported"
        (mediaColCount drv.media)).1 0 mn0 mx0
  have hbase : ∀ n, countName m2 n =
      (if "media-size-supported" = n then countName msg n - 1 else countName msg n)
      + (if mediaColCount drv.media = 0 then 0
         else if "media-size-supported" = n then 1 else 0) := by
    intro n
    rw [hcnt n, countName_addCols_fst, countName_deleteFirst]
  cases mn2 with
  | none =>
    refine ⟨m2, none, mx2, ?_, hbase⟩
    simp [mediaSizeSection, heq]
  | some mn =>
    cases mx2 with
    | none =>
      refine ⟨m2, some mn, none, ?_, hbase⟩
      simp [mediaSizeSection, heq]
    | some mx =>
      refine ⟨setCol m2
          (addCols (deleteFirst "media-size-supported" msg) "media-size-supported"
            (mediaColCount drv.media)).2 c2
          (Value.colV (rollRangeSize (db mn) (db mx))), some mn, some mx, ?_, ?_⟩
      · simp [mediaSizeSection, heq, totalDb]
      · intro n; rw [countName_setCol]; exact hbase n

end LPrint

namespace LPrint

set_option maxHeartbeats 1000000 in
theorem copy_media_le_one (db : String → PwgMedia) (drv : Driver) (msg : IppMsg) :
    ∃ m9, lprint_copy_media (totalDb db) drv msg = CRes.ok m9
      ∧ ∀ n, countName msg n ≤ 1 → countName m9 n ≤ 1 := by
  obtain ⟨m2, mn, mx, heq2, hc2⟩ := mediaColSection_ok_counts db drv
    (addInt (deleteFirst "media-bottom-margin-supported" msg)
      "media-bottom-margin-supported" drv.bottom_top)
  obtain ⟨m5, mn5, mx5, heq5, hc5⟩ := mediaSizeSection_ok_counts db drv mn mx
    (addInt (deleteFirst "media-right-margin-supported"
        (addInt (deleteFirst "media-left-margin-supported" m2)
          "media-left-margin-supported" drv.left_right))
      "media-right-margin-supported" drv.left_right)
  refine ⟨(let m6a := deleteFirst "media-source-supported" m5
           let m6b := if drv.source.length ≠ 0 then
               addStrs m6a "media-source-supported" drv.source else m6a
           let m7 := addStrs (deleteFirst "media-supported" m6b) "media-supported" drv.media
           let m8 := addInt (deleteFirst "media-top-margin-supported" m7)
               "media-top-margin-supported" drv.bottom_top
           let m9 := deleteFirst "media-type-supported" m8
           if drv.type.length ≠ 0 then addStrs m9 "media-type-supported" drv.type else m9),
    ?_, ?_⟩
  · simp only [lprint_copy_media, heq2, heq5]
  · intro n hn
    have hb1 : countName (addInt (deleteFirst "media-bottom-margin-supported" msg)
        "media-bottom-margin-supported" drv.bottom_top) n ≤ 1 := by
      rw [countName_addInt, countName_deleteFirst]
      split_ifs <;> first | omega | (subst_vars; simp_all)
    have hb2 : countName m2 n ≤ 1 := by
      rw [hc2 n]; split_ifs <;> first | omega | (subst_vars; simp_all)
    have hb4 : countName (addInt (deleteFirst "media-right-margin-supported"
        (addInt (deleteFirst "media-left-margin-supported" m2)
          "media-left-margin-supported" drv.left_right))
        "media-right-margin-supported" drv.left_right) n ≤ 1 := by
      rw [countName_addInt, countName_deleteFirst, countName_addInt, countName_deleteFirst]
      split_ifs <;> first | omega | (subst_vars; simp_all)
    have hb5 : countName m5 n ≤ 1 := by
      rw [hc5 n]; split_ifs <;> first | omega | (subst_vars; simp_all)
    by_cases hS : drv.source.length = 0 <;> by_cases hT : drv.type.length = 0 <;>
      simp only [hS, hT, ne_eq, not_true_eq_false, not_false_eq_true, if_true, if_false,
        ite_true, ite_false, countName_addStrs, countName_addInt, countName_deleteFirst] <;>
      split_ifs <;> first | omega | (subst_vars; simp_all)

set_option maxHeartbeats 1000000 in
theorem copyResolution_le_one (drv : Driver) (msg : IppMsg) (n : String)
    (hn : countName msg n ≤ 1) : countName (copyResolution drv msg) n ≤ 1 := by
  by_cases hL : 0 < drv.x_resolution.length <;>
    simp only [copyResolution, hL, if_true, if_false, ite_true, ite_false,
      countName_addStrs, countName_addResList, countName_addRes, countName_deleteFirst,
      List.isEmpty_cons] <;>
    split_ifs <;> first | omega | (subst_vars; simp_all)

end LPrint

namespace LPrint

theorem rollMinCount_eq_zero_loopMin (ms : List String) :
    ∀ acc, rollMinCount ms = 0 → loopMin ms acc = acc := by
  induction ms with
  | nil => intro acc _; rfl
  | cons m rest ih =>
    intro acc h
    rw [rollMinCount_cons] at h
    cases h1 : isRollMax m with
    | true => simp [loopMin, h1]; exact ih acc (by simpa [h1] using h)
    | false =>
      cases h2 : isRollMin m with
      | true => simp [h1, h2] at h
      | false => simp [loopMin, h1, h2]; exact ih acc (by simpa [h1, h2] using h)

theorem loopMin_some_count (ms : List String) (mn : String)
    (h : loopMin ms none = some mn) : 1 ≤ rollMinCount ms := by
  by_contra hc
  have h0 : rollMinCount ms = 0 := by omega
  rw [rollMinCount_eq_zero_loopMin ms none h0] at h
  exact Option.noConfusion h

theorem loopMin_isSome_iff (ms : List String) : ∀ acc : Option String,
    (loopMin ms acc).isSome = true ↔
      (acc.isSome = true ∨ ∃ m ∈ ms, isRollMin m = true ∧ isRollMax m = false) := by
  induction ms with
  | nil => intro acc; simp [loopMin]
  | cons m rest ih =>
    intro acc
    cases h1 : isRollMax m with
    | true =>
      rw [show loopMin (m :: rest) acc = loopMin rest acc from by simp [loopMin, h1], ih acc]
      constructor
      · rintro (h | ⟨x, hx, hp⟩)
        · exact Or.inl h
        · exact Or.inr ⟨x, List.mem_cons_of_mem m hx, hp⟩
      · rintro (h | ⟨x, hx, hmin, hmax⟩)
        · exact Or.inl h
        · rcases List.mem_cons.mp hx with rfl | hx
          · rw [h1] at hmax; exact absurd hmax (by simp)
          · exact Or.inr ⟨x, hx, hmin, hmax⟩
    | false =>
      cases h2 : isRollMin m with
      | true =>
        rw [show loopMin (m :: rest) acc = loopMin rest (some m) from by simp [loopMin, h1, h2],
          ih (some m)]
        constructor
        · intro _; exact Or.inr ⟨m, List.mem_cons_self m rest, h2, h1⟩
        · intro _; exact Or.inl rfl
      | false =>
        rw [show loopMin (m :: rest) acc = loopMin rest acc from by simp [loopMin, h1, h2], ih acc]
        constructor
        · rintro (h | ⟨x, hx, hp⟩)
          · exact Or.inl h
          · exact Or.inr ⟨x, List.mem_cons_of_mem m hx, hp⟩
        · rintro (h | ⟨x, hx, hmin, hmax⟩)
          · exact Or.inl h
          · rcases List.mem_cons.mp hx with rfl | hx
            · rw [h2] at hmin; exact absurd hmin (by simp)
            · exact Or.inr ⟨x, hx, hmin, hmax⟩

theorem loopMax_isSome_iff (ms : List String) : ∀ acc : Option String,
    (loopMax ms acc).isSome = true ↔
      (acc.isSome = true ∨ ∃ m ∈ ms, isRollMax m = true) := by
  induction ms with
  | nil => intro acc; simp [loopMax]
  | cons m rest ih =>
    intro acc
    cases h1 : isRollMax m with
    | true =>
      rw [show loopMax (m :: rest) acc = loopMax rest (some m) from by simp [loopMax, h1],
        ih (some m)]
      constructor
      · intro _; exact Or.inr ⟨m, List.mem_cons_self m rest, h1⟩
      · intro _; exact Or.inl rfl
    | false =>
      rw [show loopMax (m :: rest) acc = loopMax rest acc from by simp [loopMax, h1], ih acc]
      constructor
      · rintro (h | ⟨x, hx, hp⟩)
        · exact Or.inl h
        · exact Or.inr ⟨x, List.mem_cons_of_mem m hx, hp⟩
      · rintro (h | ⟨x, hx, hmax⟩)
        · exact Or.inl h
        · rcases List.mem_cons.mp hx with rfl | hx
          · rw [h1] at hmax; exact absurd hmax (by simp)
          · exact Or.inr ⟨x, hx, hmax⟩

end LPrint

namespace LPrint

theorem mediaColLoop_none_char (db : String → PwgMedia) (lr bt : Int) (ms : List String) :
    ∀ (msg : IppMsg) (c : Nat) (mn mx : Option String),
    mediaColLoop (totalDb db) lr bt none ms msg c mn mx =
      CRes.ok (msg, c + discreteCount ms, loopMin ms mn, loopMax ms mx) := by
  induction ms with
  | nil => intro msg c mn mx; simp [mediaColLoop, discreteCount, loopMin, loopMax]
  | cons m rest ih =>
    intro msg c mn mx
    cases h1 : isRollMax m with
    | true =>
      rw [show mediaColLoop (totalDb db) lr bt none (m :: rest) msg c mn mx =
            mediaColLoop (totalDb db) lr bt none rest msg c mn (some m) from by
          simp [mediaColLoop, h1], ih]
      simp [discreteCount_cons, isDiscrete, h1, loopMin, loopMax]
    | false =>
      cases h2 : isRollMin m with
      | true =>
        rw [show mediaColLoop (totalDb db) lr bt none (m :: rest) msg c mn mx =
              mediaColLoop (totalDb db) lr bt none rest msg c (some m) mx from by
            simp [mediaColLoop, h1, h2], ih]
        simp [discreteCount_cons, isDiscrete, h1, h2, loopMin, loopMax]
      | false =>
        rw [show mediaColLoop (totalDb db) lr bt none (m :: rest) msg c mn mx =
              mediaColLoop (totalDb db) lr bt none rest msg (c + 1) mn mx from by
            simp [mediaColLoop, h1, h2, createMediaCol_total, setCol], ih]
        have hd : discreteCount (m :: rest) = 1 + discreteCount rest := by
          simp [discreteCount_cons, isDiscrete, h1, h2]
        rw [hd, show c + 1 + discreteCount rest = c + (1 + discreteCount rest) from by omega]
        simp [loopMin, loopMax, h1, h2]

theorem mediaColLoop_char (db : String → PwgMedia) (lr bt : Int) (base : IppMsg) (nm : String) :
    ∀ (ms : List String) (pre tail : List Value) (mn mx : Option String),
    mediaColLoop (totalDb db) lr bt (some base.length) ms
      (base ++ [(nm, pre ++ (List.replicate (discreteCount ms + rollMinCount ms) Value.noneV ++ tail))])
      pre.length mn mx
    = CRes.ok
        (base ++ [(nm, pre ++
          ((ms.filter isDiscrete).map (fun m => Value.colV (mediaColOf db lr bt m)) ++
           (List.replicate (rollMinCount ms) Value.noneV ++ tail)))],
         pre.length + discreteCount ms, loopMin ms mn, loopMax ms mx) := by
  intro ms
  induction ms with
  | nil =>
    intro pre tail mn mx
    simp [mediaColLoop, discreteCount, rollMinCount, loopMin, loopMax]
  | cons m rest ih =>
    intro pre tail mn mx
    cases h1 : isRollMax m with
    | true =>
      have hd : discreteCount (m :: rest) = discreteCount rest := by
        simp [discreteCount_cons, isDiscrete, h1]
      have hk : rollMinCount (m :: rest) = rollMinCount rest := by
        simp [rollMinCount_cons, h1]
      have hf : (m :: rest).filter isDiscrete = rest.filter isDiscrete := by
        simp [List.filter_cons, isDiscrete, h1]
      rw [show mediaColLoop (totalDb db) lr bt (some base.length) (m :: rest)
            (base ++ [(nm, pre ++ (List.replicate (discreteCount (m :: rest) + rollMinCount (m :: rest)) Value.noneV ++ tail))])
            pre.length mn mx
          = mediaColLoop (totalDb db) lr bt (some base.length) rest
            (base ++ [(nm, pre ++ (List.replicate (discreteCount rest + rollMinCount rest) Value.noneV ++ tail))])
            pre.length mn (some m) from by
          simp only [mediaColLoop, h1, hd, hk]; rfl, ih]
      rw [hd, hf]
      simp [loopMin, loopMax, h1, hk]
    | false =>
      cases h2 : isRollMin m with
      | true =>
        have hd : discreteCount (m :: rest) = discreteCount rest := by
          simp [discreteCount_cons, isDiscrete, h2]
        have hk : rollMinCount (m :: rest) = 1 + rollMinCount rest := by
          simp [rollMinCount_cons, h1, h2]
        have hf : (m :: rest).filter isDiscrete = rest.filter isDiscrete := by
          simp [List.filter_cons, isDiscrete, h2]
        have hrep : List.replicate (discreteCount (m :: rest) + rollMinCount (m :: rest)) Value.noneV ++ tail
            = List.replicate (discreteCount rest + rollMinCount rest) Value.noneV ++ (Value.noneV :: tail) := by
          rw [hd, hk, show discreteCount rest + (1 + rollMinCount rest)
                = (discreteCount rest + rollMinCount rest) + 1 from by omega,
            List.replicate_succ']
          simp
        rw [show mediaColLoop (totalDb db) lr bt (some base.length) (m :: rest)
              (base ++ [(nm, pre ++ (List.replicate (discreteCount (m :: rest) + rollMinCount (m :: rest)) Value.noneV ++ tail))])
              pre.length mn mx
            = mediaColLoop (totalDb db) lr bt (some base.length) rest
              (base ++ [(nm, pre ++ (List.replicate (discreteCount rest + rollMinCount rest) Value.noneV ++ (Value.noneV :: tail)))])
              pre.length (some m) mx from by
            rw [hrep]; simp only [mediaColLoop, h1, h2]; rfl, ih]
        have hrep2 : List.replicate (rollMinCount rest) Value.noneV ++ (Value.noneV :: tail)
            = List.replicate (rollMinCount (m :: rest)) Value.noneV ++ tail := by
          rw [hk, show 1 + rollMinCount rest = rollMinCount rest + 1 from by omega,
            List.replicate_succ']
          simp
        rw [hd, hf, hrep2]
        simp [loopMin, loopMax, h1, h2]
      | false =>
        have hd : discreteCount (m :: rest) = 1 + discreteCount rest := by
          simp [discreteCount_cons, isDiscrete, h1, h2]
        have hf : (m :: rest).filter isDiscrete = m :: rest.filter isDiscrete := by
          simp [List.filter_cons, isDiscrete, h1, h2]
        have hk : rollMinCount (m :: rest) = rollMinCount rest := by
          simp [rollMinCount_cons, h1, h2]
        have hrep : pre ++ (List.replicate (discreteCount (m :: rest) + rollMinCount (m :: rest)) Value.noneV ++ tail)
            = pre ++ (Value.noneV :: (List.replicate (discreteCount rest + rollMinCount rest) Value.noneV ++ tail)) := by
          rw [hd, hk, show 1 + discreteCount rest + rollMinCount rest
                = (discreteCount rest + rollMinCount rest) + 1 from by omega,
            List.replicate_succ]
          simp
        have hstep : mediaColLoop (totalDb db) lr bt (some base.length) (m :: rest)
              (base ++ [(nm, pre ++ (List.replicate (discreteCount (m :: rest) + rollMinCount (m :: rest)) Value.noneV ++ tail))])
              pre.length mn mx
            = mediaColLoop (totalDb db) lr bt (some base.length) rest
              (base ++ [(nm, (pre ++ [Value.colV (mediaColOf db lr bt m)]) ++
                 (List.replicate (discreteCount rest + rollMinCount rest) Value.noneV ++ tail))])
              (pre.length + 1) mn mx := by
          rw [hrep]
          simp only [mediaColLoop, h1, h2, createMediaCol_total]
          rw [setCol_concat, setAt_append_cons]
          simp [List.append_assoc]
        rw [hstep, show pre.length + 1 = (pre ++ [Value.colV (mediaColOf db lr bt m)]).length from by simp,
          ih]
        rw [hd, hf, hk]
        simp only [List.map_cons, loopMin, loopMax, h1, h2]
        rw [show (pre ++ [Value.colV (mediaColOf db lr bt m)]).length = pre.length + 1 from by simp,
          show pre.length + 1 + discreteCount rest = pre.length + (1 + discreteCount rest) from by omega]
        simp [List.append_assoc]

end LPrint

namespace LPrint

theorem discreteCols_length (db : String → PwgMedia) (lr bt : Int) (ms : List String) :
    ((ms.filter isDiscrete).map (fun m => Value.colV (mediaColOf db lr bt m))).length
      = discreteCount ms := by
  simp [discreteCount]

set_option maxHeartbeats 1000000 in
theorem mediaColSection_char (db : String → PwgMedia) (drv : Driver) (msg : IppMsg) :
    mediaColSection (totalDb db) drv msg =
      CRes.ok (deleteFirst "media-col-database" msg ++
        (if mediaColCount drv.media = 0 then []
         else [("media-col-database",
                mediaColDbValues db drv.left_right drv.bottom_top drv.media)]),
        loopMin drv.media none, loopMax drv.media none) := by
  by_cases h0 : mediaColCount drv.media = 0
  · have hk0 : rollMinCount drv.media = 0 := by
      have := mediaColCount_eq drv.media; omega
    have hmin : loopMin drv.media none = none := rollMinCount_eq_zero_loopMin _ none hk0
    simp only [mediaColSection, addCols, h0, if_true, ite_true]
    rw [mediaColLoop_none_char]
    simp [hmin, h0]
  · have halloc : mediaColCount drv.media = discreteCount drv.media + rollMinCount drv.media :=
      mediaColCount_eq _
    simp only [mediaColSection, addCols, h0, if_false, ite_false]
    rw [show (deleteFirst "media-col-database" msg ++
          [("media-col-database", List.replicate (mediaColCount drv.media) Value.noneV)] : IppMsg)
        = deleteFirst "media-col-database" msg ++
          [("media-col-database",
            ([] : List Value) ++
              (List.replicate (discreteCount drv.media + rollMinCount drv.media) Value.noneV ++ ([] : List Value)))]
        from by simp [halloc],
      show (0 : Nat) = ([] : List Value).length from rfl,
      mediaColLoop_char db drv.left_right drv.bottom_top
        (deleteFirst "media-col-database" msg) "media-col-database" drv.media [] [] none none]
    cases hmn : loopMin drv.media none with
    | none =>
      simp [mediaColDbValues, hmn, h0]
    | some mn =>
      cases hmx : loopMax drv.media none with
      | none =>
        simp [mediaColDbValues, hmn, hmx, h0]
      | some mx =>
        have hk1 : 1 ≤ rollMinCount drv.media := loopMin_some_count _ _ hmn
        simp only [totalDb]
        rw [setCol_concat]
        have hidx : ([] : List Value).length + discreteCount drv.media
            = ((drv.media.filter isDiscrete).map
                (fun m => Value.colV (mediaColOf db drv.left_right drv.bottom_top m))).length := by
          simp [discreteCount]
        rw [show (([] : List Value) ++
              ((drv.media.filter isDiscrete).map (fun m => Value.colV (mediaColOf db drv.left_right drv.bottom_top m)) ++
               (List.replicate (rollMinCount drv.media) Value.noneV ++ ([] : List Value))))
            = ((drv.media.filter isDiscrete).map (fun m => Value.colV (mediaColOf db drv.left_right drv.bottom_top m)) ++
               (Value.noneV :: List.replicate (rollMinCount drv.media - 1) Value.noneV))
            from by
          rw [show rollMinCount drv.media = (rollMinCount drv.media - 1) + 1 from by omega]
          simp [List.replicate_succ],
          hidx, setAt_append_cons]
        simp [mediaColDbValues, hmn, hmx, h0]

end LPrint

namespace LPrint

theorem lookupModel_not_mem (ks : List String) :
    ∀ (ms : List String) (nm : String), nm ∉ ks → lookupModel ks ms nm = none := by
  induction ks with
  | nil => intro ms nm _; cases ms <;> rfl
  | cons k kt ih =>
    intro ms nm h
    cases ms with
    | nil => rfl
    | cons m mt =>
      have hk : (k == nm) = false := by
        rw [beq_eq_false_iff_ne]
        intro hh; apply h; rw [← hh]; exact List.mem_cons_self k kt
      simp only [lookupModel, hk, Bool.false_eq_true, if_false, ite_false]
      exact ih mt nm (fun hm => h (List.mem_cons_of_mem k hm))

theorem driverIndex_mem (nm : String) (ks : List String) :
    ∀ i, driverIndex nm ks = some i → nm ∈ ks := by
  induction ks with
  | nil => intro i h; simp [driverIndex] at h
  | cons k kt ih =>
    intro i h
    cases hk : (k == nm) with
    | true =>
      have : k = nm := by simpa using hk
      rw [← this]; exact List.mem_cons_self k kt
    | false =>
      simp only [driverIndex, hk, Bool.false_eq_true, if_false, ite_false] at h
      rcases Option.map_eq_some'.mp h with ⟨j, hj, _⟩
      exact List.mem_cons_of_mem k (ih j hj)

theorem filter_deleteFirst (p : Attr → Bool) (d : String) (msg : IppMsg)
    (hp : ∀ a : Attr, a.1 = d → p a = false) :
    (deleteFirst d msg).filter p = msg.filter p := by
  induction msg with
  | nil => rfl
  | cons a rest ih =>
    by_cases h1 : a.1 = d
    · simp [deleteFirst, h1, List.filter_cons, hp a h1]
    · simp [deleteFirst, h1, List.filter_cons, ih]

theorem dispatch_registry_dymo :
    ∀ k ∈ lprint_drivers, dispatchFamily k = Family.dymo := by decide

end LPrint

namespace LPrint

/-- C1 counterexample: for the media list `["w36h23","roll_min_w6","roll_max_w101"]`
the collection count allocated for media-col-database is 2, not the discrete
count 1, and the attribute ends up holding 2 collections: the allocation loop
(lines 316-318) excludes only `roll_max_`-prefixed entries, so the
`roll_min_` sentinel is counted, contradicting the claim that the allocated
count excludes every entry prefixed `roll_min_` or `roll_max_`. -/
theorem mediaColDatabase_alloc_counterexample :
    mediaColCount ["w36h23", "roll_min_w6", "roll_max_w101"] = 2 ∧
    discreteCount ["w36h23", "roll_min_w6", "roll_max_w101"] = 1 ∧
    (mediaColDbValues sampleDb 100 200 ["w36h23", "roll_min_w6", "roll_max_w101"]).length = 2 := by
  decide

/-- C1 (amended): the media-col-database attribute written by the Media
Capability Builder holds exactly one collection per discrete entry, in list
order, followed by the range collection when both sentinels were seen and by
one untouched NULL slot per remaining counted `roll_min_` entry; the count of
collections allocated for the attribute excludes only the entries prefixed
`roll_max_` — it is the discrete count plus the number of `roll_min_`
entries, so for `["w36h23","roll_min_w6","roll_max_w101"]` the discrete
collection count is 1 while 2 slots are allocated. -/
theorem mediaColDatabase_alloc_counts (db : String → PwgMedia) (drv : Driver) (msg : IppMsg) :
    mediaColSection (totalDb db) drv msg =
      CRes.ok (deleteFirst "media-col-database" msg ++
        (if mediaColCount drv.media = 0 then []
         else [("media-col-database",
                mediaColDbValues db drv.left_right drv.bottom_top drv.media)]),
        loopMin drv.media none, loopMax drv.media none)
    ∧ (mediaColDbValues db drv.left_right drv.bottom_top drv.media).length
        = mediaColCount drv.media
    ∧ mediaColCount drv.media = discreteCount drv.media + rollMinCount drv.media := by
  refine ⟨mediaColSection_char db drv msg, ?_, mediaColCount_eq _⟩
  unfold mediaColDbValues
  cases hmn : loopMin drv.media none with
  | none => simp [mediaColCount_eq, discreteCount]
  | some mn =>
    cases hmx : loopMax drv.media none with
    | none => simp [mediaColCount_eq, discreteCount]
    | some mx =>
      have hk1 := loopMin_some_count _ _ hmn
      simp [mediaColCount_eq, discreteCount]
      omega

/-- C2: the Media Capability Builder emits a roll range entry into
media-col-database exactly when both a `roll_min_` and a `roll_max_` sentinel
are present in the media list (the loop-saved `minname`/`maxname` are the
last entries of each kind): in that case exactly one extra collection is
written after the discrete ones, holding a single `media-size` whose
`x-dimension` and `y-dimension` are ranges from the resolved minimum to the
resolved maximum size; when at most one sentinel is present, the attribute
holds only the discrete collections (and NULL filler slots), no range. -/
theorem mediaColDatabase_range_entry (db : String → PwgMedia) (drv : Driver) (msg : IppMsg) :
    ((loopMin drv.media none).isSome = true ↔
        ∃ m ∈ drv.media, isRollMin m = true ∧ isRollMax m = false)
    ∧ ((loopMax drv.media none).isSome = true ↔ ∃ m ∈ drv.media, isRollMax m = true)
    ∧ (∀ mn mx, loopMin drv.media none = some mn → loopMax drv.media none = some mx →
        mediaColSection (totalDb db) drv msg =
          CRes.ok (deleteFirst "media-col-database" msg ++
            [("media-col-database",
              (drv.media.filter isDiscrete).map
                (fun m => Value.colV (mediaColOf db drv.left_right drv.bottom_top m)) ++
              Value.colV (rollRangeCol (db mn) (db mx)) ::
                List.replicate (rollMinCount drv.media - 1) Value.noneV)],
            some mn, some mx))
    ∧ ((loopMin drv.media none = none ∨ loopMax drv.media none = none) →
        mediaColDbValues db drv.left_right drv.bottom_top drv.media =
          (drv.media.filter isDiscrete).map
            (fun m => Value.colV (mediaColOf db drv.left_right drv.bottom_top m)) ++
          List.replicate (rollMinCount drv.media) Value.noneV) := by
  refine ⟨by simpa using loopMin_isSome_iff drv.media none,
    by simpa using loopMax_isSome_iff drv.media none, ?_, ?_⟩
  · intro mn mx hmn hmx
    have hk1 := loopMin_some_count _ _ hmn
    have h0 : ¬mediaColCount drv.media = 0 := by
      rw [mediaColCount_eq]; omega
    have h := mediaColSection_char db drv msg
    rw [hmn, hmx] at h
    rw [h]
    simp [h0, mediaColDbValues, hmn, hmx]
  · intro hcase
    unfold mediaColDbValues
    rcases hcase with hmn | hmx
    · rw [hmn]
    · rw [hmx]; cases loopMin drv.media none <;> rfl

/-- C2 witness: for the driver media list `["w36h23","roll_min_w6","roll_max_w101"]`
both sentinels are saved by the loop, and the synthesized media-col-database
holds the one discrete collection followed by exactly one range collection
resolved from `roll_min_w6` and `roll_max_w101`. -/
theorem mediaColDatabase_range_entry_witness :
    loopMin rollDriver.media none = some "roll_min_w6" ∧
    loopMax rollDriver.media none = some "roll_max_w101" ∧
    mediaColSection (totalDb sampleDb) rollDriver [] =
      CRes.ok ([("media-col-database",
        [Value.colV (mediaColOf sampleDb 100 200 "w36h23"),
         Value.colV (rollRangeCol (sampleDb "roll_min_w6") (sampleDb "roll_max_w101"))])],
        some "roll_min_w6", some "roll_max_w101") := by
  refine ⟨by decide, by decide, ?_⟩
  have h := (mediaColDatabase_range_entry sampleDb rollDriver []).2.2.1
    "roll_min_w6" "roll_max_w101" (by decide) (by decide)
  rw [h]
  rfl

/-- C8: on a media-size name the database cannot resolve, the C code
dereferences the NULL pointer returned by `pwgMediaForPWG` (`pwg->width` in
`lprint_create_media_size`, lines 459-462) instead of surfacing a lookup
error: `lprint_create_media_size` and, through it, the whole Media Capability
Builder end in the null-dereference outcome, which in C is a crash, not a
`MediaLookupError` returned to the caller. -/
theorem mediaLookup_null_deref :
    lprint_create_media_size (fun _ => none) "custom_unknown_9x9mm" = CRes.nullDeref ∧
    lprint_copy_media (fun _ => none) unknownMediaDriver [] = CRes.nullDeref :=
  ⟨rfl, rfl⟩

end LPrint

namespace LPrint

set_option maxHeartbeats 1000000 in
/-- C3: for a driver with a non-empty ascending resolution list of length n
whose capability set holds at most one prior resolution default and one prior
urf attribute, the Resolution Capability Builder writes exactly one
printer-resolution-default attribute holding the last (highest) entry, and
exactly one urf-supported attribute holding exactly the 3-element list
`V1.4`, `W8`, token, where the token is `RS<x 0>` when n = 1 and
`RS<x (n-2)>-<x (n-1)>` (the x-values of the two highest entries) when
n >= 2. -/
theorem resolution_default_and_token (drv : Driver) (msg : IppMsg)
    (hne : drv.x_resolution ≠ [])
    (hlen : drv.y_resolution.length = drv.x_resolution.length)
    (hasc : List.Chain' (fun a b => a ≤ b) drv.x_resolution)
    (hc1 : countName msg "printer-resolution-default" ≤ 1)
    (hc2 : countName msg "urf-supported" ≤ 1) :
    countName (copyResolution drv msg) "printer-resolution-default" = 1 ∧
    ("printer-resolution-default",
      [Value.resV (drv.x_resolution.getD (drv.x_resolution.length - 1) 0)
                  (drv.y_resolution.getD (drv.x_resolution.length - 1) 0)])
      ∈ copyResolution drv msg ∧
    countName (copyResolution drv msg) "urf-supported" = 1 ∧
    ("urf-supported",
      [Value.strV "V1.4", Value.strV "W8",
       Value.strV (if drv.x_resolution.length = 1
         then "RS" ++ toString (drv.x_resolution.getD 0 0)
         else "RS" ++ toString (drv.x_resolution.getD (drv.x_resolution.length - 2) 0)
              ++ "-" ++ toString (drv.x_resolution.getD (drv.x_resolution.length - 1) 0))])
      ∈ copyResolution drv msg := by
  have hL : 0 < drv.x_resolution.length := List.length_pos.mpr hne
  refine ⟨?_, ?_, ?_, ?_⟩
  · simp only [copyResolution, hL, if_true, ite_true, countName_addStrs,
      countName_addResList, countName_addRes, countName_deleteFirst]
    split_ifs <;> simp_all <;> omega
  · simp only [copyResolution, hL, if_true, ite_true]
    apply mem_addStrs
    apply mem_deleteFirst_of_ne _ _ _ _ (by simp)
    apply mem_addResList
    apply mem_deleteFirst_of_ne _ _ _ _ (by simp)
    apply mem_addResList
    exact List.mem_append_right _ (List.mem_singleton.mpr rfl)
  · simp only [copyResolution, hL, if_true, ite_true, countName_addStrs,
      countName_addResList, countName_addRes, countName_deleteFirst]
    split_ifs <;> simp_all <;> omega
  · simp only [copyResolution, hL, if_true, ite_true, addStrs, List.isEmpty_cons,
      Bool.false_eq_true, if_false, ite_false, rsToken]
    exact List.mem_append_right _ (List.mem_singleton.mpr rfl)

/-- C3 witness: for the resolution list [(203,203),(300,300),(600,600)] the
builder writes the default (600,600) and the urf token `RS300-600`. -/
theorem resolution_default_and_token_witness :
    (demoResDriver.x_resolution ≠ [] ∧
     demoResDriver.y_resolution.length = demoResDriver.x_resolution.length ∧
     List.Chain' (fun a b => a ≤ b) demoResDriver.x_resolution ∧
     countName ([] : IppMsg) "printer-resolution-default" ≤ 1 ∧
     countName ([] : IppMsg) "urf-supported" ≤ 1) ∧
    (countName (copyResolution demoResDriver []) "printer-resolution-default" = 1 ∧
     ("printer-resolution-default", [Value.resV 600 600]) ∈ copyResolution demoResDriver [] ∧
     countName (copyResolution demoResDriver []) "urf-supported" = 1 ∧
     ("urf-supported", [Value.strV "V1.4", Value.strV "W8", Value.strV "RS300-600"])
       ∈ copyResolution demoResDriver []) := by
  have hch : List.Chain' (fun a b => a ≤ b) demoResDriver.x_resolution := by
    norm_num [demoResDriver, List.chain'_cons, List.chain'_singleton]
  have h := resolution_default_and_token demoResDriver [] (by decide) (by decide)
    hch (by decide) (by decide)
  exact ⟨⟨by decide, by decide, hch, by decide, by decide⟩, h⟩

/-- C7 counterexample: with an empty resolution list the builder is not a
no-op on a capability set that already holds a resolution attribute — the
unconditional deletes (lines 147-150, 159-160, 166-167) remove it. -/
theorem resolutionBuilder_empty_counterexample :
    copyResolution emptyResDriver [("printer-resolution-default", [Value.resV 203 203])] = [] ∧
    ([] : IppMsg) ≠ [("printer-resolution-default", [Value.resV 203 203])] := by
  exact ⟨rfl, by simp⟩

/-- C7 (amended): with an empty resolution list the Resolution Capability
Builder emits no resolution attributes, and attributes named anything other
than the four resolution names are untouched; but it still deletes the first
existing attribute of each of the four resolution names, so a capability set
already holding such attributes is not left unaffected. -/
theorem resolutionBuilder_empty_effect (drv : Driver) (msg : IppMsg)
    (h : drv.x_resolution = []) :
    (∀ n ∈ resNames, countName (copyResolution drv msg) n = countName msg n - 1)
    ∧ (copyResolution drv msg).filter (fun a => !(resNames.contains a.1)) =
        msg.filter (fun a => !(resNames.contains a.1)) := by
  have hL : ¬0 < drv.x_resolution.length := by simp [h]
  constructor
  · intro n hn
    fin_cases hn <;>
      simp only [copyResolution, hL, if_false, ite_false, countName_deleteFirst] <;>
      split_ifs <;> simp_all
  · simp only [copyResolution, hL, if_false, ite_false]
    rw [filter_deleteFirst _ _ _ (by intro a ha; simp [resNames, ha]),
      filter_deleteFirst _ _ _ (by intro a ha; simp [resNames, ha]),
      filter_deleteFirst _ _ _ (by intro a ha; simp [resNames, ha]),
      filter_deleteFirst _ _ _ (by intro a ha; simp [resNames, ha])]

/-- C7 witness: a driver with no resolutions run against a set holding a
resolution default and an unrelated attribute deletes the default and keeps
the unrelated attribute. -/
theorem resolutionBuilder_empty_effect_witness :
    emptyResDriver.x_resolution = [] ∧
    (∀ n ∈ resNames, countName (copyResolution emptyResDriver resMsgEx) n
        = countName resMsgEx n - 1) ∧
    (copyResolution emptyResDriver resMsgEx).filter
        (fun a => !(resNames.contains a.1)) =
      resMsgEx.filter (fun a => !(resNames.contains a.1)) :=
  ⟨rfl, (resolutionBuilder_empty_effect emptyResDriver resMsgEx rfl).1,
    (resolutionBuilder_empty_effect emptyResDriver resMsgEx rfl).2⟩

/-- C9: looking up a registry keyword resolves to the model string at the
same index (the tables are index-aligned and keywords are unique), and
`lprintGetMakeAndModel` answers `Unknown` for an absent driver and for a
driver whose name matches no registry keyword. -/
theorem registry_lookup_spec :
    (∀ i, i < lprint_drivers.length → ∀ d : Driver, d.name = lprint_drivers.getD i "" →
      lprintGetMakeAndModel (some d) = lprint_models.getD i "")
    ∧ lprintGetMakeAndModel none = "Unknown"
    ∧ (∀ d : Driver, d.name ∉ lprint_drivers → lprintGetMakeAndModel (some d) = "Unknown") := by
  refine ⟨?_, rfl, ?_⟩
  · intro i hi d hd
    have hb : ∀ j, j < lprint_drivers.length →
        lookupModel lprint_drivers lprint_models (lprint_drivers.getD j "")
          = some (lprint_models.getD j "") := by decide
    simp only [lprintGetMakeAndModel, hd, hb i hi, Option.getD_some]
  · intro d hd
    simp [lprintGetMakeAndModel, lookupModel_not_mem lprint_drivers lprint_models d.name hd]

/-- C9 witness: index 0 maps `dymo_lm-400` to `Dymo LabelMANAGER 400`, and an
absent driver or the unregistered keyword `zebra_zpl-203` answer Unknown. -/
theorem registry_lookup_spec_witness :
    (0 < lprint_drivers.length ∧ (freshDriver "dymo_lm-400").name = lprint_drivers.getD 0 "" ∧
     lprintGetMakeAndModel (some (freshDriver "dymo_lm-400")) = "Dymo LabelMANAGER 400") ∧
    lprintGetMakeAndModel none = "Unknown" ∧
    ("zebra_zpl-203" ∉ lprint_drivers ∧
     lprintGetMakeAndModel (some (freshDriver "zebra_zpl-203")) = "Unknown") := by
  refine ⟨⟨by decide, by decide, ?_⟩, registry_lookup_spec.2.1, ⟨by decide, ?_⟩⟩
  · exact (registry_lookup_spec.1 0 (by decide) (freshDriver "dymo_lm-400") (by decide)).trans
      (by decide)
  · exact registry_lookup_spec.2.2 (freshDriver "zebra_zpl-203") (by decide)

end LPrint

namespace LPrint

/-- C4 counterexample: on a capability set that already holds two attributes
named media-supported, running `lprintCreateDriver` still leaves two — the
find-then-delete step removes only the first attribute of the name before
adding the new value, so "removes any existing attribute of each synthesized
name" fails for an arbitrary capability set. -/
theorem synthesis_duplicate_counterexample :
    countName (resultAttrs (lprintCreateDriver (totalDb sampleDb) demoPop dupPrinter))
      "media-supported" = 2 := by
  decide

/-- C4 (amended): on a capability set in which every builder-written name
occurs at most once (in particular one populated by a previous synthesis
from such a set), running `lprintCreateDriver` leaves every builder-written
name with at most one attribute; delete-before-add removes only the first
existing attribute of a name, so the at-most-once precondition is needed. -/
theorem synthesis_replace_semantics (db : String → PwgMedia) (pop : Family → Driver → Driver)
    (p : Printer) (res : Option Driver) (p2 : Printer) (tr : List Event)
    (hrun : lprintCreateDriver (totalDb db) pop p = CRes.ok (res, p2, tr))
    (hclean : ∀ n ∈ synthNames, countName p.attrs n ≤ 1) :
    ∀ n ∈ synthNames, countName p2.attrs n ≤ 1 := by
  intro n hn
  have hne : n ≠ "printer-make-and-model" := by
    intro hmm; rw [hmm] at hn; exact absurd hn (by decide)
  have hc := hclean n hn
  simp only [lprintCreateDriver] at hrun
  cases hg : getString0 (findAttr p.attrs "lprint-driver") with
  | none =>
    simp only [hg, CRes.ok.injEq, Prod.mk.injEq] at hrun
    rw [← hrun.2.1]
    exact hc
  | some nm =>
    cases hi : driverIndex nm lprint_drivers with
    | none =>
      simp only [hg, hi, CRes.ok.injEq, Prod.mk.injEq] at hrun
      rw [← hrun.2.1]
      exact hc
    | some i =>
      obtain ⟨m9, hm9, hle⟩ :=
        copy_media_le_one db (pop (dispatchFamily nm) (freshDriver nm)) p.attrs
      simp only [hg, hi, hm9, CRes.ok.injEq, Prod.mk.injEq] at hrun
      rw [← hrun.2.1]
      apply copyResolution_le_one
      rw [countName_setMakeModel_ne _ _ _ hne]
      exact hle n hc

/-- C4 witness: a clean printer attribute set stays free of duplicates
through a full successful synthesis. -/
theorem synthesis_replace_semantics_witness :
    (∀ n ∈ synthNames, countName demoPrinter.attrs n ≤ 1) ∧
    ∃ res p2 tr,
      lprintCreateDriver (totalDb sampleDb) demoPop demoPrinter = CRes.ok (res, p2, tr)
      ∧ ∀ n ∈ synthNames, countName p2.attrs n ≤ 1 := by
  refine ⟨by decide, ?_⟩
  refine ⟨_, _, _, rfl, ?_⟩
  exact synthesis_replace_semantics sampleDb demoPop demoPrinter _ _ _ rfl (by decide)

/-- C5: when the printer carries no driver keyword attribute or a keyword
matching no registry entry, `lprintCreateDriver` returns NULL after only
taking and releasing the lock, leaving the printer — its driver field and
its whole capability set — unchanged. -/
theorem createDriver_notFound (db : String → Option PwgMedia) (pop : Family → Driver → Driver)
    (p : Printer)
    (h : ∀ s, getString0 (findAttr p.attrs "lprint-driver") = some s →
         driverIndex s lprint_drivers = none) :
    lprintCreateDriver db pop p = CRes.ok (none, p, [Event.lockAcquire, Event.lockRelease]) := by
  simp only [lprintCreateDriver]
  cases hg : getString0 (findAttr p.attrs "lprint-driver") with
  | none => rfl
  | some s => simp [h s hg]

/-- C5 witness: the unregistered keyword `zebra_zpl-203` yields NotFound and
an unchanged printer. -/
theorem createDriver_notFound_witness :
    lprintCreateDriver (totalDb sampleDb) demoPop
      ⟨[("lprint-driver", [Value.strV "zebra_zpl-203"])], none⟩ =
    CRes.ok (none, ⟨[("lprint-driver", [Value.strV "zebra_zpl-203"])], none⟩,
      [Event.lockAcquire, Event.lockRelease]) := by
  apply createDriver_notFound
  intro s hs
  have hss : s = "zebra_zpl-203" := by
    have : getString0 (findAttr
        ([("lprint-driver", [Value.strV "zebra_zpl-203"])] : IppMsg) "lprint-driver")
        = some "zebra_zpl-203" := rfl
    rw [this] at hs
    exact (Option.some.injEq _ _ ▸ hs).symm
  rw [hss]
  decide

/-- C6 counterexample: in a successful run the source attaches the driver to
the printer (line 135) before running the Media Capability Builder, sets
make-and-model between the media and resolution builders, and runs the
Resolution Capability Builder last — not the claimed order where both
builders and make-and-model precede the attachment. -/
theorem createDriver_order_counterexample :
    resultTrace (lprintCreateDriver (totalDb sampleDb) demoPop demoPrinter) =
      [Event.lockAcquire, Event.famInit Family.dymo, Event.attach, Event.mediaBuilder,
       Event.makeModel, Event.resolutionBuilder, Event.lockRelease] ∧
    resultTrace (lprintCreateDriver (totalDb sampleDb) demoPop demoPrinter) ≠
      [Event.lockAcquire, Event.famInit Family.dymo, Event.mediaBuilder,
       Event.resolutionBuilder, Event.makeModel, Event.attach, Event.lockRelease] := by
  constructor <;> decide

/-- C6 (amended): every successful `lprintCreateDriver` run performs, inside
one lock acquire/release pair (one critical section), exactly this sequence:
family populate, attach to the printer, Media Capability Builder,
make-and-model, Resolution Capability Builder — attachment happens before
capability synthesis, not after it. -/
theorem createDriver_success_order (db : String → Option PwgMedia)
    (pop : Family → Driver → Driver) (p : Printer) (drv : Driver) (p2 : Printer)
    (tr : List Event)
    (hrun : lprintCreateDriver db pop p = CRes.ok (some drv, p2, tr)) :
    ∃ fam, tr = [Event.lockAcquire, Event.famInit fam, Event.attach, Event.mediaBuilder,
                 Event.makeModel, Event.resolutionBuilder, Event.lockRelease] := by
  simp only [lprintCreateDriver] at hrun
  cases hg : getString0 (findAttr p.attrs "lprint-driver") with
  | none =>
    simp only [hg, CRes.ok.injEq, Prod.mk.injEq] at hrun
    exact Option.noConfusion hrun.1
  | some nm =>
    cases hi : driverIndex nm lprint_drivers with
    | none =>
      simp only [hg, hi, CRes.ok.injEq, Prod.mk.injEq] at hrun
      exact Option.noConfusion hrun.1
    | some i =>
      cases hcm : lprint_copy_media db (pop (dispatchFamily nm) (freshDriver nm)) p.attrs with
      | nullDeref =>
        simp only [hg, hi, hcm] at hrun
        exact CRes.noConfusion hrun
      | ok a2 =>
        simp only [hg, hi, hcm, CRes.ok.injEq, Prod.mk.injEq] at hrun
        exact ⟨dispatchFamily nm, hrun.2.2.symm⟩

/-- C6 witness: a concrete successful run produces exactly the amended event
order. -/
theorem createDriver_success_order_witness :
    ∃ drv p2 tr,
      lprintCreateDriver (totalDb sampleDb) demoPop demoPrinter = CRes.ok (some drv, p2, tr)
      ∧ ∃ fam, tr = [Event.lockAcquire, Event.famInit fam, Event.attach, Event.mediaBuilder,
                     Event.makeModel, Event.resolutionBuilder, Event.lockRelease] := by
  refine ⟨_, _, _, rfl, ?_⟩
  exact createDriver_success_order (totalDb sampleDb) demoPop demoPrinter _ _ _ rfl

/-- C10: every registry keyword carries the `dymo_` prefix, so the dispatch
chain sends every keyword the registry can match to the DYMO family; hence
every successful `lprintCreateDriver` run dispatches the DYMO family
populate step and no other family's. -/
theorem createDriver_dispatch_dymo :
    (∀ k ∈ lprint_drivers, dispatchFamily k = Family.dymo)
    ∧ (∀ (db : String → Option PwgMedia) (pop : Family → Driver → Driver) (p : Printer)
         (drv : Driver) (p2 : Printer) (tr : List Event),
        lprintCreateDriver db pop p = CRes.ok (some drv, p2, tr) →
        Event.famInit Family.dymo ∈ tr ∧
          ∀ f, f ≠ Family.dymo → Event.famInit f ∉ tr) := by
  refine ⟨dispatch_registry_dymo, ?_⟩
  intro db pop p drv p2 tr hrun
  simp only [lprintCreateDriver] at hrun
  cases hg : getString0 (findAttr p.attrs "lprint-driver") with
  | none =>
    simp only [hg, CRes.ok.injEq, Prod.mk.injEq] at hrun
    exact Option.noConfusion hrun.1
  | some nm =>
    cases hi : driverIndex nm lprint_drivers with
    | none =>
      simp only [hg, hi, CRes.ok.injEq, Prod.mk.injEq] at hrun
      exact Option.noConfusion hrun.1
    | some i =>
      cases hcm : lprint_copy_media db (pop (dispatchFamily nm) (freshDriver nm)) p.attrs with
      | nullDeref =>
        simp only [hg, hi, hcm] at hrun
        exact CRes.noConfusion hrun
      | ok a2 =>
        simp only [hg, hi, hcm, CRes.ok.injEq, Prod.mk.injEq] at hrun
        have hdy : dispatchFamily nm = Family.dymo :=
          dispatch_registry_dymo nm (driverIndex_mem nm lprint_drivers i hi)
        have htr := hrun.2.2
        rw [hdy] at htr
        constructor
        · rw [← htr]; simp
        · intro f hf
          rw [← htr]
          simp [hf]

/-- C10 witness: the keyword `dymo_lm-400` dispatches DYMO, and a concrete
successful run traces the DYMO populate step and no other family's. -/
theorem createDriver_dispatch_dymo_witness :
    dispatchFamily "dymo_lm-400" = Family.dymo ∧
    ∃ drv p2 tr,
      lprintCreateDriver (totalDb sampleDb) demoPop demoPrinter = CRes.ok (some drv, p2, tr)
      ∧ Event.famInit Family.dymo ∈ tr
      ∧ ∀ f, f ≠ Family.dymo → Event.famInit f ∉ tr := by
  refine ⟨createDriver_dispatch_dymo.1 "dymo_lm-400" (by decide), ?_⟩
  refine ⟨_, _, _, rfl, ?_⟩
  exact createDriver_dispatch_dymo.2 (totalDb sampleDb) demoPop demoPrinter _ _ _ rfl

end LPrint
